import Mathlib

/-!
Shallow embedding of the discovery-driven dynamic resource access layer of
kube-mcp-server (`pkg/k8s`, file embedded from `src/unnamed/part_004`).

External collaborators (the Kubernetes API server, the discovery endpoint,
the client-go informer stores, log streams) are modelled as explicit inputs:
each operation takes the outcome of the network calls it would make as a
parameter and the model reproduces the Go function's control flow on those
outcomes.  Go maps are modelled as association lists where a later insertion
shadows an earlier binding (last write wins, exactly like a Go map
assignment).
-/

namespace KubeMCP

/-- `schema.GroupVersionResource`: the API coordinate a kind resolves to. -/
structure GVR where
  group : String
  version : String
  resource : String
deriving DecidableEq, Repr

/-- One entry of a discovery `APIResourceList` (`metav1.APIResource`):
the fields the source consults. -/
structure APIResource where
  name : String
  singularName : String
  namespaced : Bool
  kind : String
  verbs : List String
deriving DecidableEq, Repr

/-- `metav1.APIResourceList`: a raw `GroupVersion` string plus its resources. -/
structure APIResourceList where
  groupVersion : String
  resources : List APIResource
deriving DecidableEq, Repr

/-- Split a character list at its first slash: the characters before it and,
when a slash exists, the characters after it. -/
def splitAtFirstSlash : List Char → List Char × Option (List Char)
  | [] => ([], none)
  | c :: rest =>
    if c = '/' then ([], some rest)
    else
      let (pre, post) := splitAtFirstSlash rest
      (c :: pre, post)

/-- `schema.ParseGroupVersion`: "" and "/" parse to the empty group/version;
a string with no slash is a bare version; exactly one slash splits
group/version; more slashes are an error (`none`). -/
def parseGroupVersion (gv : String) : Option (String × String) :=
  if gv = "" || gv = "/" then some ("", "")
  else
    match splitAtFirstSlash gv.data with
    | (_, none) => some ("", gv)
    | (g, some rest) =>
      if rest.contains '/' then none
      else some (⟨g⟩, ⟨rest⟩)

/-- Outcome of `discoveryClient.ServerPreferredResources()`:
`ok` is a nil error, `groupFailure` is a non-nil error for which
`discovery.IsGroupDiscoveryFailedError` holds (partial results are still
returned), `failure` is any other non-nil error (no results). -/
inductive DiscoveryResult where
  | ok (lists : List APIResourceList)
  | groupFailure (lists : List APIResourceList)
  | failure
deriving DecidableEq, Repr

/-- The lists a caller iterates after the source's error check passed. -/
def DiscoveryResult.lists : DiscoveryResult → List APIResourceList
  | .ok ls => ls
  | .groupFailure ls => ls
  | .failure => []

/-- Errors of the coordinate resolver (`getCachedGVR`). -/
inductive ResolveErr where
  | discoveryUnavailable
  | kindNotFound (kind : String)
deriving DecidableEq, Repr

/-- The `apiResourceCache` map from kind to coordinate, as an association
list; `lookupCache` returns the most recent binding, so consing a new pair
models a Go map assignment. -/
abbrev GVRCache := List (String × GVR)

/-- Go map read `c.apiResourceCache[kind]`. -/
def lookupCache (c : GVRCache) (kind : String) : Option GVR :=
  (c.find? (fun p => p.1 = kind)).map (fun p => p.2)

/-- The discovery scan inside `getCachedGVR`: walk the resource lists in
order, skip a list whose `GroupVersion` fails to parse, and return the
coordinate of the first resource whose `Kind` equals the request. -/
def findKindInLists (kind : String) : List APIResourceList → Option GVR
  | [] => none
  | l :: rest =>
    match parseGroupVersion l.groupVersion with
    | none => findKindInLists kind rest
    | some (g, v) =>
      match l.resources.find? (fun r => r.kind = kind) with
      | some r => some ⟨g, v, r.name⟩
      | none => findKindInLists kind rest

/-- `Client.getCachedGVR`: answer from `apiResourceCache` on a hit; on a
miss call discovery, fail only when the error is not a group-discovery
failure, otherwise scan the lists and insert the first match into the
cache; report `resource type %s not found` when the scan finds nothing.
Returns the result together with the updated cache. -/
def getCachedGVR (c : GVRCache) (disc : DiscoveryResult) (kind : String) :
    Except ResolveErr GVR × GVRCache :=
  match lookupCache c kind with
  | some gvr => (.ok gvr, c)
  | none =>
    match disc with
    | .failure => (.error .discoveryUnavailable, c)
    | .ok lists | .groupFailure lists =>
      match findKindInLists kind lists with
      | some gvr => (.ok gvr, (kind, gvr) :: c)
      | none => (.error (.kindNotFound kind), c)

/-- `Client.supportsListAndWatchVerbs`: both "list" and "watch" present. -/
def supportsListAndWatchVerbs (verbs : List String) : Bool :=
  (verbs.any (fun v => v = "list")) && (verbs.any (fun v => v = "watch"))

/-- The effect of `Client.autoRegisterAllInformers` on `apiResourceCache`:
for every discovered resource whose verbs include list and watch, assign
`apiResourceCache[resource.Kind] = gvr` (an unconditional Go map write);
lists whose `GroupVersion` fails to parse are skipped. -/
def autoRegisterCache (lists : List APIResourceList) (c : GVRCache) : GVRCache :=
  lists.foldl
    (fun acc l =>
      match parseGroupVersion l.groupVersion with
      | none => acc
      | some (g, v) =>
        l.resources.foldl
          (fun acc2 r =>
            if supportsListAndWatchVerbs r.verbs then
              (r.kind, ⟨g, v, r.name⟩) :: acc2
            else acc2)
          acc)
    c

/-- The fields of a cluster object the read path projects out
(`metav1.Object` accessors plus the unstructured content, which we keep as
the object itself: `UnstructuredContent()` returns the object's map). -/
structure K8sObject where
  kind : String
  name : String
  ns : String
  labels : List (String × String)
deriving DecidableEq, Repr

/-- An item held in a `cache.Store`, as the read path's type assertions see
it: a `*unstructured.Unstructured`, some other type implementing
`metav1.Object`, or something that is neither. -/
inductive StoreItem where
  | unstructured (o : K8sObject)
  | typed (o : K8sObject)
  | nonObject
deriving DecidableEq, Repr

/-- A `cache.Store`: keyed items (`GetByKey`) whose values `List()` returns
in insertion order. The informer populates it; the model takes its contents
as given. -/
structure Store where
  items : List (String × StoreItem)
deriving DecidableEq, Repr

/-- `cache.Store.GetByKey`. -/
def Store.getByKey (s : Store) (key : String) : Option StoreItem :=
  (s.items.find? (fun p => p.1 = key)).map (fun p => p.2)

/-- `cache.Store.List`. -/
def Store.list (s : Store) : List StoreItem :=
  s.items.map (fun p => p.2)

/-- The read-relevant state of `k8s.Client`: the per-kind store map
`resourceCaches`, the per-kind `informerSynced` flag map, and the
coordinate cache `apiResourceCache`. -/
structure ClientState where
  resourceCaches : List (String × Store)
  informerSynced : List (String × Bool)
  apiResourceCache : GVRCache
deriving DecidableEq, Repr

/-- Go map read `c.resourceCaches[kind]`. -/
def lookupStore (st : ClientState) (kind : String) : Option Store :=
  (st.resourceCaches.find? (fun p => p.1 = kind)).map (fun p => p.2)

/-- Go map read `c.informerSynced[kind]`, evaluating the `HasSynced`
function to the flag's current value. -/
def lookupSynced (st : ClientState) (kind : String) : Option Bool :=
  (st.informerSynced.find? (fun p => p.1 = kind)).map (fun p => p.2)

/-- `Client.getResourceCacheKey`: "kind/namespace/name", or "kind/name"
when the namespace is empty. -/
def getResourceCacheKey (kind ns name : String) : String :=
  if ns ≠ "" then kind ++ "/" ++ ns ++ "/" ++ name
  else kind ++ "/" ++ name

/-- `Client.getResourceFromCache`: look up the kind's store, fetch by the
composite key, and answer only when the stored item is a
`*unstructured.Unstructured`; every other case reports a miss.  The
`informerSynced` map is not consulted. -/
def getResourceFromCache (st : ClientState) (kind ns name : String) :
    Option K8sObject :=
  match lookupStore st kind with
  | none => none
  | some store =>
    match store.getByKey (getResourceCacheKey kind ns name) with
    | some (.unstructured o) => some o
    | _ => none

/-- Result of a read, tagged with the path that produced it. -/
inductive ReadOutcome where
  | cached (o : K8sObject)
  | live (o : K8sObject)
  | resolveErr (e : ResolveErr)
  | apiErr (e : String)
deriving DecidableEq, Repr

/-- `Client.GetResource`: try the local cache first; on a miss resolve the
coordinate and issue a live get (`liveGet` is the outcome of that dynamic
client call, namespaced or cluster-scoped as the namespace dictates).
Returns the outcome with the updated coordinate cache. -/
def GetResource (st : ClientState) (disc : DiscoveryResult)
    (liveGet : Except String K8sObject) (kind name ns : String) :
    ReadOutcome × GVRCache :=
  match getResourceFromCache st kind ns name with
  | some o => (.cached o, st.apiResourceCache)
  | none =>
    match getCachedGVR st.apiResourceCache disc kind with
    | (.error e, c1) => (.resolveErr e, c1)
    | (.ok _, c1) =>
      match liveGet with
      | .ok o => (.live o, c1)
      | .error e => (.apiErr ("failed to retrieve resource:" ++ e), c1)

/-- One projected entry of a list result: the source emits
`{"name", "kind", "namespace", "lables"}`. -/
structure ListEntry where
  name : String
  kind : String
  ns : String
  labels : List (String × String)
deriving DecidableEq, Repr

/-- The loop body of `Client.listResourcesFromCache` over the store's
items: items that do not implement `metav1.Object` are skipped; an item in
the wrong namespace is skipped by `continue` *before* the selector check;
the first surviving item seen while a label or field selector is non-empty
aborts with `(nil, false)` (modelled as `none`); otherwise the projection
is appended. -/
def listCacheLoop (kind ns labelSelector fieldSelector : String) :
    List StoreItem → Option (List ListEntry)
  | [] => some []
  | item :: rest =>
    match item with
    | .nonObject => listCacheLoop kind ns labelSelector fieldSelector rest
    | .unstructured o | .typed o =>
      if ns ≠ "" && o.ns ≠ ns then
        listCacheLoop kind ns labelSelector fieldSelector rest
      else if labelSelector ≠ "" || fieldSelector ≠ "" then
        none
      else
        (listCacheLoop kind ns labelSelector fieldSelector rest).map
          (fun r => ⟨o.name, kind, o.ns, o.labels⟩ :: r)

/-- `Client.listResourcesFromCache`: `none` models the `(nil, false)`
return (no store for the kind, or a selector forced the caller to the live
API); `some entries` models `(entries, true)`. -/
def listResourcesFromCache (st : ClientState)
    (kind ns labelSelector fieldSelector : String) :
    Option (List ListEntry) :=
  match lookupStore st kind with
  | none => none
  | some store => listCacheLoop kind ns labelSelector fieldSelector store.list

/-- Result of a list, tagged with the path that produced it. -/
inductive ListOutcome where
  | cached (entries : List ListEntry)
  | live (entries : List ListEntry)
  | resolveErr (e : ResolveErr)
  | apiErr (e : String)
deriving DecidableEq, Repr

/-- `Client.ListResources`: serve from the store when
`listResourcesFromCache` reports `found`; otherwise resolve the coordinate
and run a live list (`liveList` is that call's outcome, already restricted
to the namespace and selectors in the options), projecting each item. -/
def ListResources (st : ClientState) (disc : DiscoveryResult)
    (liveList : Except String (List K8sObject))
    (kind ns labelSelector fieldSelector : String) :
    ListOutcome × GVRCache :=
  match listResourcesFromCache st kind ns labelSelector fieldSelector with
  | some entries => (.cached entries, st.apiResourceCache)
  | none =>
    match getCachedGVR st.apiResourceCache disc kind with
    | (.error e, c1) => (.resolveErr e, c1)
    | (.ok _, c1) =>
      match liveList with
      | .error e => (.apiErr ("failed to list resources" ++ e), c1)
      | .ok objs =>
        (.live (objs.map (fun o => ⟨o.name, o.kind, o.ns, o.labels⟩)), c1)

/-- Result of `DescribeResource`; `panics` marks the execution that
dereferences a nil `*unstructured.Unstructured` (a Go runtime panic). -/
inductive DescribeOutcome where
  | ok (o : K8sObject)
  | resolveErr (e : ResolveErr)
  | apiErr (e : String)
  | panics
deriving DecidableEq, Repr

/-- `Client.DescribeResource`: cache first, then resolve, then a live get.
In the namespaced branch a get error returns a wrapped error; in the
cluster-scoped branch (`namespace == ""`) the get error is never checked,
so a failed get leaves `obj` nil and the final
`obj.UnstructuredContent()` dereferences it. -/
def DescribeResource (st : ClientState) (disc : DiscoveryResult)
    (liveGet : Except String K8sObject) (kind name ns : String) :
    DescribeOutcome :=
  match getResourceFromCache st kind ns name with
  | some o => .ok o
  | none =>
    match getCachedGVR st.apiResourceCache disc kind with
    | (.error e, _) => .resolveErr e
    | (.ok _, _) =>
      if ns = "" then
        match liveGet with
        | .ok o => .ok o
        | .error _ => .panics
      else
        match liveGet with
        | .ok o => .ok o
        | .error e => .apiErr ("failed to retrieve resource: " ++ e)

/-- Outcome of one API call the upsert issues, as the source inspects it:
`notFound` satisfies `errors.IsNotFound`. -/
inductive ApiErr where
  | notFound
  | other (msg : String)
deriving DecidableEq, Repr

/-- The live-cluster responses an upsert may consume, one per call site:
the namespace get, the namespace create, the merge patch, and the create
fallback. -/
structure UpsertEnv where
  nsGet : Except ApiErr Unit
  nsCreate : Except String Unit
  patch : Except ApiErr K8sObject
  create : Except String K8sObject
deriving Repr

/-- Result of an upsert.  `nilNil` marks the execution that returns a nil
object together with a nil error; `panics` marks the execution that
dereferences the nil `*schema.GroupVersionResource` left by a failed
resolution. -/
inductive UpsertOutcome where
  | ok (o : K8sObject)
  | err (e : String)
  | nilNil
  | panics
deriving DecidableEq, Repr

/-- `Client.CreateOrUpdateResoureceJSON`, exactly as written: after
unmarshalling the manifest (`parsed` is that outcome) it resolves the
coordinate and — because the source tests `if err == nil` — returns
`nil, err` (both nil) whenever resolution SUCCEEDS; when resolution fails
it keeps going with a nil `gvr`, ensures the namespace, rejects an empty
name, and then dereferences `*gvr`. -/
def CreateOrUpdateResoureceJSON (cache : GVRCache) (disc : DiscoveryResult)
    (env : UpsertEnv) (ns : String) (parsed : Option K8sObject)
    (kind : String) : UpsertOutcome :=
  match parsed with
  | none => .err "failed to parse resourfce manifest JSON"
  | some obj =>
    match (getCachedGVR cache disc kind).1 with
    | .ok _ => .nilNil
    | .error _ =>
      let afterNs : Option UpsertOutcome :=
        match env.nsGet with
        | .ok _ => none
        | .error .notFound =>
          match env.nsCreate with
          | .error e => some (.err ("failed to create namespace " ++ ns ++ ":" ++ e))
          | .ok _ => none
        | .error (.other _) => none
      match afterNs with
      | some out => out
      | none =>
        let obj1 := { obj with ns := ns }
        if obj1.name = "" then .err "resource name is requird"
        else .panics

/-- The intended upsert algorithm, per the call sequence the sibling
`CreateOrUpdateResourceYAML` implements after its (correct) `err != nil`
resolution check: ensure the namespace, require a name, merge-patch, and
fall back to create when the patch reports not-found. -/
def upsertAfterResolve (env : UpsertEnv) (ns : String) (obj : K8sObject) :
    UpsertOutcome :=
  let afterNs : Option UpsertOutcome :=
    match env.nsGet with
    | .ok _ => none
    | .error .notFound =>
      match env.nsCreate with
      | .error e => some (.err ("failed to create namespace " ++ ns ++ ":" ++ e))
      | .ok _ => none
    | .error (.other _) => none
  match afterNs with
  | some out => out
  | none =>
    let obj1 := { obj with ns := ns }
    if obj1.name = "" then .err "resource name is requird"
    else
      match env.patch with
      | .ok result => .ok result
      | .error .notFound =>
        match env.create with
        | .ok result => .ok result
        | .error e => .err ("falied to create or patch resopurce:" ++ e)
      | .error (.other e) =>
        .err e

/-- `Client.GetAPIResources`, exactly as written: the error guard fires
only when the discovery error IS a group-discovery failure (so a total
discovery failure slips through with an empty list), and the item filter
skips a resource iff `includeClusterScoped` is false — the
`includeNamespaceScoped` parameter is never read. -/
def GetAPIResources (disc : DiscoveryResult)
    (includeNamespaceScoped includeClusterScoped : Bool) :
    Except String (List APIResource) :=
  match disc with
  | .groupFailure _ => .error "failed to retrieve api resource"
  | .ok lists =>
    .ok (lists.flatMap (fun l =>
      l.resources.filter (fun r =>
        !((r.namespaced && !includeClusterScoped) ||
          (!r.namespaced && !includeClusterScoped)))))
  | .failure => .ok []

/-- `Client.GetPodsLogs` tail clamp: `if LogstailLines > 300 { 300 }`,
computed once before any branch. -/
def clampTail (n : Int) : Int :=
  if n > 300 then 300 else n

/-- One `GetLogs(...).Stream` request the function issues: the `Container`
field of its options (empty when unset) and the `TailLines` value. -/
structure LogRequest where
  container : String
  tailLines : Int
deriving DecidableEq, Repr

/-- The sequence of log-stream requests `Client.GetPodsLogs` issues, by
branch: an explicit container streams once with that container; otherwise
the pod is fetched (`podGet` yields its container names, or the get
error); a single-container pod streams once with no container set; a
multi-container pod streams once per container via a `DeepCopy` of the
shared options, which preserves `TailLines`. -/
def getPodsLogsRequests (containerName : String)
    (podGet : Except String (List String)) (logsTailLines : Int) :
    List LogRequest :=
  let tailLines := clampTail logsTailLines
  if containerName ≠ "" then
    [⟨containerName, tailLines⟩]
  else
    match podGet with
    | .error _ => []
    | .ok containers =>
      if containers.length = 1 then [⟨"", tailLines⟩]
      else containers.map (fun c => ⟨c, tailLines⟩)

/-- What one container's stream produced: the `Stream` call failed, the
`io.Copy` failed, or the tail was read. -/
inductive StreamOutcome where
  | streamErr (e : String)
  | readErr (e : String)
  | logs (s : String)
deriving DecidableEq, Repr

/-- A container of the fetched pod spec paired with its stream outcome. -/
structure ContainerRun where
  name : String
  outcome : StreamOutcome
deriving DecidableEq, Repr

/-- The text the multi-container loop appends for one container: a failed
`Stream` writes an error header inlining the error and continues; a
successful stream writes the logs header followed by either the copied
tail or an inlined read error. -/
def containerSection (c : ContainerRun) : String :=
  match c.outcome with
  | .streamErr e =>
    "\n--- Error getting logs for container " ++ c.name ++ ": " ++ e ++ " ---\n"
  | .readErr e =>
    "\n--- Logs for container " ++ c.name ++ " ---\n" ++
      ("Error reading logs: " ++ e ++ "\n")
  | .logs s =>
    "\n--- Logs for container " ++ c.name ++ " ---\n" ++ s

/-- Sequential concatenation, the `strings.Builder` the loop writes to. -/
def joinAll : List String → String
  | [] => ""
  | s :: rest => s ++ joinAll rest

/-- The multi-container branch of `Client.GetPodsLogs` (two or more
containers, none named): concatenate every container's section and return
the builder's contents with a nil error. -/
def getPodsLogsMulti (containers : List ContainerRun) : Except String String :=
  .ok (joinAll (containers.map containerSection))

/-- One flattened `{host, path} -> {service, port}` tuple of an ingress. -/
structure IngressPathInfo where
  host : String
  path : String
  serviceName : String
  portName : String
  portNum : Int
deriving DecidableEq, Repr

/-- One HTTP path of an ingress rule; `backendService` is `none` when
`path.Backend.Service` is nil. -/
structure HTTPPath where
  path : String
  backendService : Option (String × String × Int)
deriving DecidableEq, Repr

/-- One ingress rule; `http` is `none` when `rule.HTTP` is nil. -/
structure IngressRule where
  host : String
  http : Option (List HTTPPath)
deriving DecidableEq, Repr

/-- The ingress fields `GetIngresses` reads. -/
structure Ingress where
  name : String
  ns : String
  rules : List IngressRule
deriving DecidableEq, Repr

/-- The tuples one matching rule contributes. -/
def rulePaths (rule : IngressRule) : List IngressPathInfo :=
  match rule.http with
  | none => []
  | some paths =>
    paths.filterMap (fun p =>
      p.backendService.map (fun b => ⟨rule.host, p.path, b.1, b.2.1, b.2.2⟩))

/-- One iteration of the rule loop of `GetIngresses`: a rule whose host
differs from a non-empty filter is skipped (`continue`); a rule passing
the filter sets `hasMatchingHost` and contributes its backend tuples. -/
def ingressRuleStep (host : String) (acc : Bool × List IngressPathInfo)
    (rule : IngressRule) : Bool × List IngressPathInfo :=
  if host ≠ "" && rule.host ≠ host then acc
  else if host = "" || rule.host = host then
    (true, acc.2 ++ rulePaths rule)
  else acc

/-- The per-ingress rule loop of `GetIngresses`: `hasMatchingHost` starts
true iff the ingress has zero rules, then the rules are folded through
`ingressRuleStep`. -/
def ingressScan (host : String) (ing : Ingress) : Bool × List IngressPathInfo :=
  ing.rules.foldl (ingressRuleStep host) (ing.rules.isEmpty, [])

/-- One output element of `GetIngresses`:
`{"name", "namespace", "IngressPathInfo"}`. -/
structure IngressEntry where
  name : String
  ns : String
  paths : List IngressPathInfo
deriving DecidableEq, Repr

/-- The contribution of one ingress to the result: included iff the scan
left `hasMatchingHost` true. -/
def ingressEntry (host : String) (ing : Ingress) : Option IngressEntry :=
  let scan := ingressScan host ing
  if scan.1 then some ⟨ing.name, ing.ns, scan.2⟩ else none

/-- An item of the Ingress store as the store branch's type switch sees it:
an `*unstructured.Unstructured` whose conversion to `networkingv1.Ingress`
succeeds or fails, a typed `*networkingv1.Ingress`, or anything else
(skipped). -/
inductive IngressItem where
  | unstructuredOk (ing : Ingress)
  | unstructuredBad
  | typed (ing : Ingress)
  | other
deriving DecidableEq, Repr

/-- The ingress an item yields, if any. -/
def IngressItem.decoded : IngressItem → Option Ingress
  | .unstructuredOk ing => some ing
  | .typed ing => some ing
  | .unstructuredBad => none
  | .other => none

/-- The store-backed branch of `Client.GetIngresses`: decode each store
item, run the rule scan, and keep the ingresses whose flag is set. -/
def getIngressesFromStore (items : List IngressItem) (host : String) :
    List IngressEntry :=
  items.filterMap (fun it => it.decoded.bind (ingressEntry host))

/-- The live-list branch of `Client.GetIngresses`: same scan over the
ingresses the API returned. -/
def getIngressesLive (ings : List Ingress) (host : String) :
    List IngressEntry :=
  ings.filterMap (ingressEntry host)

/-! ## Concrete fixtures used by witnesses and counterexamples -/

/-- A core-group discovery list exposing `Pod`. -/
def podsV1List : APIResourceList :=
  ⟨"v1", [⟨"pods", "pod", true, "Pod", ["list", "watch", "get"]⟩]⟩

/-- A core-group discovery list exposing the cluster-scoped `Node`. -/
def nodesV1List : APIResourceList :=
  ⟨"v1", [⟨"nodes", "node", false, "Node", ["list", "watch", "get"]⟩]⟩

/-- The core-group discovery list exposing `Event`. -/
def coreEventsList : APIResourceList :=
  ⟨"v1", [⟨"events", "ev", true, "Event", ["list", "watch"]⟩]⟩

/-- The `events.k8s.io`-group discovery list exposing the same `Event`
kind under a different group. -/
def eventsK8sList : APIResourceList :=
  ⟨"events.k8s.io/v1", [⟨"events", "ev", true, "Event", ["list", "watch"]⟩]⟩

/-! ## C4: unknown kinds and failed discovery in the resolver -/

/-- No resource of any discovery list carries the given kind. -/
def kindAbsentFromLists (lists : List APIResourceList) (kind : String) : Prop :=
  ∀ l ∈ lists, ∀ r ∈ l.resources, r.kind ≠ kind

instance (lists : List APIResourceList) (kind : String) :
    Decidable (kindAbsentFromLists lists kind) := by
  unfold kindAbsentFromLists
  infer_instance

theorem findKindInLists_eq_none {lists : List APIResourceList} {kind : String}
    (h : kindAbsentFromLists lists kind) : findKindInLists kind lists = none := by
  induction lists with
  | nil => rfl
  | cons l rest ih =>
    have hl : ∀ r ∈ l.resources, r.kind ≠ kind := h l (by simp)
    have hrest : kindAbsentFromLists rest kind := fun l' hl' r hr =>
      h l' (List.mem_cons_of_mem _ hl') r hr
    have hfind : l.resources.find? (fun r => r.kind = kind) = none := by
      rw [List.find?_eq_none]
      intro r hr
      simpa using hl r hr
    unfold findKindInLists
    cases hpv : parseGroupVersion l.groupVersion with
    | none => exact ih hrest
    | some gv =>
      rw [hfind]
      exact ih hrest

/-- C4: for every kind string with no matching entry in the discovery
resource lists, `getCachedGVR` (on a cache miss) returns the
`resource type ... not found` error — it cannot return an empty or nil
coordinate with a nil error, the success constructor always carries a
coordinate; and when the discovery call itself fails with anything other
than a partial group-discovery failure, it returns the
`failed to retrieve api resource` error instead. -/
theorem getCachedGVR_unknownKind (c : GVRCache) (lists : List APIResourceList)
    (kind : String) (hc : lookupCache c kind = none)
    (habs : kindAbsentFromLists lists kind) :
    (getCachedGVR c (.ok lists) kind).1 = .error (.kindNotFound kind) ∧
    (getCachedGVR c (.groupFailure lists) kind).1 = .error (.kindNotFound kind) ∧
    (getCachedGVR c .failure kind).1 = .error .discoveryUnavailable := by
  have hf := findKindInLists_eq_none habs
  refine ⟨?_, ?_, ?_⟩ <;> simp [getCachedGVR, hc, hf]

theorem getCachedGVR_unknownKind_witness :
    (getCachedGVR [] (.ok [podsV1List]) "Frobnicator").1
      = .error (.kindNotFound "Frobnicator") :=
  (getCachedGVR_unknownKind [] [podsV1List] "Frobnicator" rfl (by decide)).1

/-! ## C5: idempotence of resolution and cache stability -/

/-- C5 counterexample: `autoRegisterAllInformers` DOES overwrite a
coordinate-cache entry. With a discovery answer listing the `Event` kind
under both the core group and `events.k8s.io` (as real clusters do),
processing only the first list leaves `Event` mapped to the core
coordinate, while processing both lists leaves it mapped to the
`events.k8s.io` coordinate: the second unconditional map assignment
replaced the entry the same run had just written, so "no operation ever
removes or overwrites a cache entry" is false. -/
theorem autoRegisterCache_overwrites :
    lookupCache (autoRegisterCache [coreEventsList] []) "Event"
      = some ⟨"", "v1", "events"⟩ ∧
    lookupCache (autoRegisterCache [coreEventsList, eventsK8sList] []) "Event"
      = some ⟨"events.k8s.io", "v1", "events"⟩ ∧
    (⟨"", "v1", "events"⟩ : GVR) ≠ ⟨"events.k8s.io", "v1", "events"⟩ :=
  ⟨by decide, by decide, by decide⟩

/-- C5 (amended): two successive calls to `getCachedGVR` return equal
coordinates — a first successful resolution leaves a cache from which the
second call is answered unchanged — and `getCachedGVR` itself never
removes a cache entry or changes the coordinate an already-cached kind
maps to (the overwrite in the counterexample belongs to
`autoRegisterAllInformers`, which runs once at startup). -/
theorem getCachedGVR_idempotent (c : GVRCache) (disc : DiscoveryResult)
    (kind : String) (g : GVR) (c1 : GVRCache)
    (h : getCachedGVR c disc kind = (.ok g, c1)) :
    getCachedGVR c1 disc kind = (.ok g, c1) ∧
    ∀ k' g', lookupCache c k' = some g' → lookupCache c1 k' = some g' := by
  cases hl : lookupCache c kind with
  | some gvr =>
    have hcomp : getCachedGVR c disc kind = (.ok gvr, c) := by
      simp [getCachedGVR, hl]
    rw [hcomp] at h
    injection h with h1 h2
    injection h1 with hg
    subst hg
    subst h2
    constructor
    · exact hcomp
    · intro k' g' h'
      exact h'
  | none =>
    cases disc with
    | failure =>
      have hcomp : getCachedGVR c .failure kind
          = (.error .discoveryUnavailable, c) := by
        simp [getCachedGVR, hl]
      rw [hcomp] at h
      injection h with h1 h2
      exact absurd h1 (by simp)
    | ok lists =>
      cases hf : findKindInLists kind lists with
      | none =>
        have hcomp : getCachedGVR c (.ok lists) kind
            = (.error (.kindNotFound kind), c) := by
          simp [getCachedGVR, hl, hf]
        rw [hcomp] at h
        injection h with h1 h2
        exact absurd h1 (by simp)
      | some gvr =>
        have hcomp : getCachedGVR c (.ok lists) kind
            = (.ok gvr, (kind, gvr) :: c) := by
          simp [getCachedGVR, hl, hf]
        rw [hcomp] at h
        injection h with h1 h2
        injection h1 with hg
        subst hg
        subst h2
        constructor
        · have hhit : lookupCache ((kind, gvr) :: c) kind = some gvr := by
            simp [lookupCache, List.find?]
          simp [getCachedGVR, hhit]
        · intro k' g' h'
          by_cases hk : kind = k'
          · subst hk
            rw [hl] at h'
            cases h'
          · simpa [lookupCache, List.find?, hk] using h'
    | groupFailure lists =>
      cases hf : findKindInLists kind lists with
      | none =>
        have hcomp : getCachedGVR c (.groupFailure lists) kind
            = (.error (.kindNotFound kind), c) := by
          simp [getCachedGVR, hl, hf]
        rw [hcomp] at h
        injection h with h1 h2
        exact absurd h1 (by simp)
      | some gvr =>
        have hcomp : getCachedGVR c (.groupFailure lists) kind
            = (.ok gvr, (kind, gvr) :: c) := by
          simp [getCachedGVR, hl, hf]
        rw [hcomp] at h
        injection h with h1 h2
        injection h1 with hg
        subst hg
        subst h2
        constructor
        · have hhit : lookupCache ((kind, gvr) :: c) kind = some gvr := by
            simp [lookupCache, List.find?]
          simp [getCachedGVR, hhit]
        · intro k' g' h'
          by_cases hk : kind = k'
          · subst hk
            rw [hl] at h'
            cases h'
          · simpa [lookupCache, List.find?, hk] using h'

theorem getCachedGVR_idempotent_witness :
    getCachedGVR [("Pod", ⟨"", "v1", "pods"⟩)] (.ok [podsV1List]) "Pod"
      = (.ok ⟨"", "v1", "pods"⟩, [("Pod", ⟨"", "v1", "pods"⟩)]) :=
  (getCachedGVR_idempotent [] (.ok [podsV1List]) "Pod" ⟨"", "v1", "pods"⟩
    [("Pod", ⟨"", "v1", "pods"⟩)] rfl).1

/-! ## C2: store-first reads and the synchronized flag -/

/-- A pod object sitting in the Pod store. -/
def podObj : K8sObject := ⟨"Pod", "foo", "default", []⟩

/-- A Pod store holding `podObj` under the composite key the read path
queries. -/
def podStore : Store := ⟨[("Pod/default/foo", .unstructured podObj)]⟩

/-- A client whose Pod informer store exists but whose `HasSynced` flag is
still false: the initial full list has not finished. -/
def st0 : ClientState := ⟨[("Pod", podStore)], [("Pod", false)], []⟩

/-- C2 counterexample: a read IS answered from a store whose initial full
list has not finished. In `st0` the Pod store's synchronized flag is
false, yet both `GetResource` and `DescribeResource` answer from that
store — with a discovery answer and a live API that would both fail, so
the value can only have come from the unsynchronized cache.  No branch of
`getResourceFromCache` reads `informerSynced`. -/
theorem getResource_servedFromUnsyncedStore :
    lookupSynced st0 "Pod" = some false ∧
    (GetResource st0 (.ok []) (.error "connection refused") "Pod" "foo" "default").1
      = .cached podObj ∧
    DescribeResource st0 (.ok []) (.error "connection refused") "Pod" "foo" "default"
      = .ok podObj :=
  ⟨by decide, by decide, by decide⟩

/-- C2 (amended): the per-kind store is consulted first — a cache hit is
returned as-is by both `GetResource` and `DescribeResource`; the operation
falls back to a live read whenever the store is absent or the composite
key is not present as an unstructured object; but the per-kind
synchronized flag is never consulted: both operations return the same
result under arbitrary `informerSynced` contents. -/
theorem getResource_cacheFirst_syncIgnored (st : ClientState)
    (disc : DiscoveryResult) (live : Except String K8sObject)
    (kind name ns : String) :
    (∀ o, getResourceFromCache st kind ns name = some o →
      (GetResource st disc live kind name ns).1 = .cached o ∧
      DescribeResource st disc live kind name ns = .ok o) ∧
    (lookupStore st kind = none → getResourceFromCache st kind ns name = none) ∧
    (getResourceFromCache st kind ns name = none →
      ∀ o, (GetResource st disc live kind name ns).1 ≠ .cached o) ∧
    (∀ flags,
      GetResource { st with informerSynced := flags } disc live kind name ns
        = GetResource st disc live kind name ns ∧
      DescribeResource { st with informerSynced := flags } disc live kind name ns
        = DescribeResource st disc live kind name ns) := by
  refine ⟨?_, ?_, ?_, ?_⟩
  · intro o h
    exact ⟨by simp [GetResource, h], by simp [DescribeResource, h]⟩
  · intro h
    simp [getResourceFromCache, h]
  · intro h o
    unfold GetResource
    rw [h]
    rcases hg : getCachedGVR st.apiResourceCache disc kind with ⟨res, c1⟩
    cases res with
    | error e => simp
    | ok gvr => cases live <;> simp
  · intro flags
    exact ⟨rfl, rfl⟩

theorem getResource_cacheFirst_syncIgnored_witness :
    (GetResource st0 (.ok []) (.error "connection refused") "Pod" "foo" "default").1
      = .cached podObj ∧
    DescribeResource st0 (.ok []) (.error "connection refused") "Pod" "foo" "default"
      = .ok podObj :=
  (getResource_cacheFirst_syncIgnored st0 (.ok []) (.error "connection refused")
    "Pod" "foo" "default").1 podObj (by decide)

/-! ## C3: selector queries and the cached list path -/

/-- A client whose Pod store exists and is empty. -/
def st1 : ClientState := ⟨[("Pod", ⟨[]⟩)], [], []⟩

/-- A pod of a different namespace, and a client whose Pod store holds
only that pod. -/
def dnsObj : K8sObject := ⟨"Pod", "dns", "kube-system", []⟩

/-- A client whose Pod store holds only an object outside the queried
namespace. -/
def st2 : ClientState :=
  ⟨[("Pod", ⟨[("Pod/kube-system/dns", .unstructured dnsObj)]⟩)], [], []⟩

/-- A pod the live API would return for the selector query. -/
def livePod : K8sObject := ⟨"Pod", "web-1", "default", [("app", "foo")]⟩

/-- C3 counterexample: with a non-empty label selector the list does NOT
fall through to the live API when the per-kind store exists but is empty
(`st1`) or holds no object in the requested namespace (`st2`): both calls
answer `(.cached [])` from the store even though the live list would have
returned a matching pod. -/
theorem listResources_selectorServedFromCache :
    ListResources st1 (.ok [podsV1List]) (.ok [livePod]) "Pod" "default" "app=foo" ""
      = (.cached [], []) ∧
    ListResources st2 (.ok [podsV1List]) (.ok [livePod]) "Pod" "default" "app=foo" ""
      = (.cached [], []) :=
  ⟨by decide, by decide⟩

/-- A store item reaches the selector check of the cached list loop: it
implements `metav1.Object` and survives the namespace filter. -/
def itemReachesSelector (ns : String) : StoreItem → Bool
  | .nonObject => false
  | .unstructured o => !(ns ≠ "" && o.ns ≠ ns)
  | .typed o => !(ns ≠ "" && o.ns ≠ ns)

theorem listCacheLoop_abort (kind ns ls fs : String)
    (hsel : ls ≠ "" ∨ fs ≠ "") :
    ∀ items : List StoreItem,
      (∃ item ∈ items, itemReachesSelector ns item = true) →
      listCacheLoop kind ns ls fs items = none := by
  intro items
  induction items with
  | nil => rintro ⟨item, hmem, _⟩; cases hmem
  | cons item rest ih =>
    rintro ⟨w, hw, hreach⟩
    cases item with
    | nonObject =>
      have hrest : ∃ x ∈ rest, itemReachesSelector ns x = true := by
        rcases List.mem_cons.1 hw with rfl | hx
        · cases hreach
        · exact ⟨w, hx, hreach⟩
      simpa [listCacheLoop] using ih hrest
    | unstructured o =>
      by_cases hns : ns ≠ "" ∧ o.ns ≠ ns
      · have hrest : ∃ x ∈ rest, itemReachesSelector ns x = true := by
          rcases List.mem_cons.1 hw with rfl | hx
          · simp [itemReachesSelector, hns.1, hns.2] at hreach
          · exact ⟨w, hx, hreach⟩
        simpa [listCacheLoop, hns] using ih hrest
      · rcases hsel with h | h <;> simp [listCacheLoop, hns, h]
    | typed o =>
      by_cases hns : ns ≠ "" ∧ o.ns ≠ ns
      · have hrest : ∃ x ∈ rest, itemReachesSelector ns x = true := by
          rcases List.mem_cons.1 hw with rfl | hx
          · simp [itemReachesSelector, hns.1, hns.2] at hreach
          · exact ⟨w, hx, hreach⟩
        simpa [listCacheLoop, hns] using ih hrest
      · rcases hsel with h | h <;> simp [listCacheLoop, hns, h]

theorem listCacheLoop_allFiltered (kind ns ls fs : String) :
    ∀ items : List StoreItem,
      (∀ item ∈ items, itemReachesSelector ns item = false) →
      listCacheLoop kind ns ls fs items = some [] := by
  intro items
  induction items with
  | nil => intro _; rfl
  | cons item rest ih =>
    intro h
    have hrest := fun x hx => h x (List.mem_cons_of_mem _ hx)
    have hhead := h item (List.mem_cons_self ..)
    cases item with
    | nonObject => simpa [listCacheLoop] using ih hrest
    | unstructured o =>
      have hns : ns ≠ "" ∧ o.ns ≠ ns := by
        simpa [itemReachesSelector] using hhead
      simpa [listCacheLoop, hns] using ih hrest
    | typed o =>
      have hns : ns ≠ "" ∧ o.ns ≠ ns := by
        simpa [itemReachesSelector] using hhead
      simpa [listCacheLoop, hns] using ih hrest

/-- C3 (amended): a non-empty label or field selector forces the fall
through to a live API list exactly when some store item reaches the
selector check (an object surviving the namespace filter); when the store
exists but no item reaches that check — the store is empty, or every item
is outside the requested namespace — the call is answered from the cache
with an empty result, selector notwithstanding. -/
theorem listResources_selectorFallThrough (st : ClientState)
    (disc : DiscoveryResult) (liveList : Except String (List K8sObject))
    (kind ns ls fs : String) (store : Store)
    (hstore : lookupStore st kind = some store) :
    ((ls ≠ "" ∨ fs ≠ "") →
      (∃ item ∈ store.list, itemReachesSelector ns item = true) →
      listResourcesFromCache st kind ns ls fs = none ∧
      ∀ entries, (ListResources st disc liveList kind ns ls fs).1 ≠ .cached entries) ∧
    ((∀ item ∈ store.list, itemReachesSelector ns item = false) →
      (ListResources st disc liveList kind ns ls fs).1 = .cached []) := by
  constructor
  · intro hsel hit
    have hnone : listResourcesFromCache st kind ns ls fs = none := by
      unfold listResourcesFromCache
      rw [hstore]
      exact listCacheLoop_abort kind ns ls fs hsel store.list hit
    refine ⟨hnone, ?_⟩
    intro entries
    unfold ListResources
    rw [hnone]
    rcases hg : getCachedGVR st.apiResourceCache disc kind with ⟨res, c1⟩
    cases res with
    | error e => simp
    | ok gvr => cases liveList <;> simp
  · intro hall
    have hsome : listResourcesFromCache st kind ns ls fs = some [] := by
      unfold listResourcesFromCache
      rw [hstore]
      exact listCacheLoop_allFiltered kind ns ls fs store.list hall
    unfold ListResources
    rw [hsome]

theorem listResources_selectorFallThrough_witness :
    listResourcesFromCache
      ⟨[("Pod", ⟨[("Pod/default/web-1", .unstructured livePod)]⟩)], [], []⟩
      "Pod" "default" "app=foo" "" = none :=
  ((listResources_selectorFallThrough
      ⟨[("Pod", ⟨[("Pod/default/web-1", .unstructured livePod)]⟩)], [], []⟩
      (.ok [podsV1List]) (.ok [livePod]) "Pod" "default" "app=foo" ""
      ⟨[("Pod/default/web-1", .unstructured livePod)]⟩ (by decide)).1
    (Or.inl (by decide)) ⟨.unstructured livePod, by decide, by decide⟩).1

/-! ## C1: the JSON upsert's inverted resolution check -/

/-- A parsed manifest carrying the required name. -/
def webPod : K8sObject := ⟨"Pod", "web", "", []⟩

/-- A live cluster on which every call the upsert could make succeeds:
the namespace exists, and both patch and create would return the
object. -/
def benignEnv : UpsertEnv := ⟨.ok (), .ok (), .ok webPod, .ok webPod⟩

/-- C1: evaluated on an input whose kind resolves to a coordinate (the
discovery answer exposes `Pod`) and whose manifest parses with a non-empty
name, against a cluster where the merge-patch would have succeeded,
`CreateOrUpdateResoureceJSON` returns a nil object together with a nil
error (`.nilNil`) without attempting any patch or create — the source's
`if err == nil { return nil, err }` fires on the success path.  The
intended post-resolution algorithm (the one the YAML sibling implements,
`upsertAfterResolve`) would have returned the patched object. -/
theorem createOrUpdateJSON_nilOnResolvedKind :
    CreateOrUpdateResoureceJSON [] (.ok [podsV1List]) benignEnv "default"
      (some webPod) "Pod" = .nilNil ∧
    upsertAfterResolve benignEnv "default" webPod = .ok webPod :=
  ⟨by decide, by decide⟩

/-! ## C6: the API-resource scope filter -/

/-- A namespace-scoped discovered resource. -/
def nsScopedRes : APIResource := ⟨"pods", "pod", true, "Pod", ["list", "watch"]⟩

/-- A cluster-scoped discovered resource. -/
def clusterScopedRes : APIResource := ⟨"nodes", "node", false, "Node", ["list", "watch"]⟩

/-- C6: the two inclusion flags are NOT independent filters.
`includeNamespaceScoped` is never read: with
`includeNamespaceScoped = false, includeClusterScoped = true` a
namespace-scoped resource is still included (the claim says it must be
excluded), and with `includeNamespaceScoped = true,
includeClusterScoped = false` both a namespace-scoped and a
cluster-scoped resource are dropped (the claim says the namespace-scoped
one must appear).  The first conjunct shows the output is entirely
independent of the `includeNamespaceScoped` argument. -/
theorem getAPIResources_scopeFilterBug :
    (∀ (disc : DiscoveryResult) (a b cs : Bool),
      GetAPIResources disc a cs = GetAPIResources disc b cs) ∧
    GetAPIResources (.ok [⟨"v1", [nsScopedRes, clusterScopedRes]⟩]) false true
      = .ok [nsScopedRes, clusterScopedRes] ∧
    GetAPIResources (.ok [⟨"v1", [nsScopedRes, clusterScopedRes]⟩]) true false
      = .ok [] :=
  ⟨fun _ _ _ _ => rfl, rfl, rfl⟩

/-! ## C10: the cluster-scoped describe branch -/

/-- C10: on the cluster-scoped branch (`namespace == ""`), a failed live
get makes `DescribeResource` dereference the nil result
(`obj.UnstructuredContent()` with `obj == nil`), a runtime panic — while
the namespaced branch with the same failing get returns the wrapped
error.  The claim that the cluster-scoped branch mirrors the namespaced
branch and never panics is false on the code. -/
theorem describeResource_clusterScopedPanics :
    DescribeResource ⟨[], [], []⟩ (.ok [nodesV1List]) (.error "connection refused")
      "Node" "node-1" "" = .panics ∧
    DescribeResource ⟨[], [], []⟩ (.ok [podsV1List]) (.error "connection refused")
      "Pod" "web" "default"
      = .apiErr "failed to retrieve resource: connection refused" :=
  ⟨by decide, by decide⟩

/-! ## C7: multi-container log aggregation -/

/-- `sub` occurs contiguously inside `s`. -/
def containsStr (s sub : String) : Prop :=
  ∃ pre post, s = pre ++ sub ++ post

theorem empty_append_str (s : String) : "" ++ s = s := by
  cases s
  rfl

theorem containsStr_trans {s t u : String} (hst : containsStr s t)
    (htu : containsStr t u) : containsStr s u := by
  rcases hst with ⟨p1, p2, hp⟩
  rcases htu with ⟨q1, q2, hq⟩
  refine ⟨p1 ++ q1, q2 ++ p2, ?_⟩
  rw [hp, hq]
  simp [String.append_assoc]

theorem joinAll_containsStr {a : String} {l : List String} (h : a ∈ l) :
    containsStr (joinAll l) a := by
  induction l with
  | nil => cases h
  | cons x xs ih =>
    rcases List.mem_cons.1 h with rfl | hx
    · refine ⟨"", joinAll xs, ?_⟩
      rw [joinAll, empty_append_str]
    · rcases ih hx with ⟨pre, post, hpp⟩
      refine ⟨x ++ pre, post, ?_⟩
      rw [joinAll, hpp]
      simp [String.append_assoc]

/-- The header line the loop writes for one container: the error header
when the `Stream` call failed, the logs header otherwise. -/
def containerHeader (c : ContainerRun) : String :=
  match c.outcome with
  | .streamErr e =>
    "\n--- Error getting logs for container " ++ c.name ++ ": " ++ e ++ " ---\n"
  | .readErr _ => "\n--- Logs for container " ++ c.name ++ " ---\n"
  | .logs _ => "\n--- Logs for container " ++ c.name ++ " ---\n"

/-- C7: for a pod with two or more containers and no container named, the
aggregation returns successfully (never an error) with a single string
that contains, for every container of the pod spec, that container's
header and its full section; and for a container whose stream call
failed, the error text itself is inlined in the output while every other
container's section is still present. -/
theorem getPodsLogsMulti_aggregates (cs : List ContainerRun)
    (h2 : 2 ≤ cs.length) :
    getPodsLogsMulti cs = .ok (joinAll (cs.map containerSection)) ∧
    (∀ c ∈ cs,
      containsStr (joinAll (cs.map containerSection)) (containerHeader c) ∧
      containsStr (joinAll (cs.map containerSection)) (containerSection c)) ∧
    (∀ c ∈ cs, ∀ e, c.outcome = .streamErr e →
      containsStr (joinAll (cs.map containerSection)) e) := by
  refine ⟨rfl, ?_, ?_⟩
  · intro c hc
    have hsec : containsStr (joinAll (cs.map containerSection)) (containerSection c) :=
      joinAll_containsStr (List.mem_map_of_mem _ hc)
    refine ⟨?_, hsec⟩
    cases hco : c.outcome with
    | streamErr e =>
      have heq : containerHeader c = containerSection c := by
        simp [containerHeader, containerSection, hco]
      rw [heq]
      exact hsec
    | readErr e =>
      have heq : containerSection c
          = containerHeader c ++ ("Error reading logs: " ++ e ++ "\n") := by
        simp [containerHeader, containerSection, hco]
      exact containsStr_trans (heq ▸ hsec) ⟨"", _, (empty_append_str _).symm⟩
    | logs s =>
      have heq : containerSection c = containerHeader c ++ s := by
        simp [containerHeader, containerSection, hco]
      exact containsStr_trans (heq ▸ hsec) ⟨"", _, (empty_append_str _).symm⟩
  · intro c hc e hco
    have hsec : containsStr (joinAll (cs.map containerSection)) (containerSection c) :=
      joinAll_containsStr (List.mem_map_of_mem _ hc)
    have hin : containsStr (containerSection c) e := by
      refine ⟨"\n--- Error getting logs for container " ++ c.name ++ ": ", " ---\n", ?_⟩
      simp [containerSection, hco, String.append_assoc]
    exact containsStr_trans hsec hin

theorem getPodsLogsMulti_aggregates_witness :
    containsStr
      (joinAll ([⟨"a", .logs "hello"⟩, ⟨"b", .streamErr "boom"⟩].map containerSection))
      "boom" :=
  (getPodsLogsMulti_aggregates [⟨"a", .logs "hello"⟩, ⟨"b", .streamErr "boom"⟩]
    (by decide)).2.2 ⟨"b", .streamErr "boom"⟩ (by decide) "boom" rfl

/-! ## C8: ingress host filtering -/

/-- An ingress with zero rules. -/
def noRulesIng : Ingress := ⟨"bare", "default", []⟩

/-- An ingress whose only rule carries a different host. -/
def otherHostIng : Ingress :=
  ⟨"web", "default", [⟨"other.example.com", some [⟨"/", some ("svc", "http", 80)⟩]⟩]⟩

theorem ingressRuleStep_noMatch (host : String) (hh : host ≠ "") :
    ∀ (rules : List IngressRule) (acc : Bool × List IngressPathInfo),
      (∀ r ∈ rules, r.host ≠ host) →
      rules.foldl (ingressRuleStep host) acc = acc := by
  intro rules
  induction rules with
  | nil => intro acc _; rfl
  | cons r rest ih =>
    intro acc hr
    have hstep : ingressRuleStep host acc r = acc := by
      simp [ingressRuleStep, hh, hr r (List.mem_cons_self ..)]
    rw [List.foldl_cons, hstep]
    exact ih acc (fun r' h' => hr r' (List.mem_cons_of_mem _ h'))

/-- C8: in both branches of `GetIngresses`, an ingress with zero rules is
included in the result for every requested host filter (its entry carries
an empty path list), and for a non-empty requested host an ingress whose
rules exist but none of which carries that host is excluded from the
result. -/
theorem getIngresses_hostFilter (host : String) (ing : Ingress)
    (ings : List Ingress) (items : List IngressItem) :
    (ing.rules = [] → ingressEntry host ing = some ⟨ing.name, ing.ns, []⟩) ∧
    (ing.rules = [] → ing ∈ ings →
      (⟨ing.name, ing.ns, []⟩ : IngressEntry) ∈ getIngressesLive ings host) ∧
    (ing.rules = [] → .typed ing ∈ items →
      (⟨ing.name, ing.ns, []⟩ : IngressEntry) ∈ getIngressesFromStore items host) ∧
    (host ≠ "" → ing.rules ≠ [] → (∀ r ∈ ing.rules, r.host ≠ host) →
      ingressEntry host ing = none ∧
      getIngressesLive [ing] host = [] ∧
      getIngressesFromStore [.typed ing] host = []) := by
  have hzero : ing.rules = [] → ingressEntry host ing = some ⟨ing.name, ing.ns, []⟩ := by
    intro h
    simp [ingressEntry, ingressScan, h]
  refine ⟨hzero, ?_, ?_, ?_⟩
  · intro h hmem
    exact List.mem_filterMap.2 ⟨ing, hmem, hzero h⟩
  · intro h hmem
    refine List.mem_filterMap.2 ⟨.typed ing, hmem, ?_⟩
    simpa [IngressItem.decoded] using hzero h
  · intro hh hne hr
    have hfold : ing.rules.foldl (ingressRuleStep host) (ing.rules.isEmpty, [])
        = (ing.rules.isEmpty, []) := ingressRuleStep_noMatch host hh ing.rules _ hr
    have hempty : ing.rules.isEmpty = false := by
      cases hrules : ing.rules with
      | nil => exact absurd hrules hne
      | cons a l => rfl
    have hnone : ingressEntry host ing = none := by
      rw [hempty] at hfold
      simp [ingressEntry, ingressScan, hempty, hfold]
    exact ⟨hnone, by simp [getIngressesLive, hnone],
      by simp [getIngressesFromStore, IngressItem.decoded, hnone]⟩

theorem getIngresses_hostFilter_witness :
    ingressEntry "example.com" noRulesIng = some ⟨"bare", "default", []⟩ ∧
    ingressEntry "example.com" otherHostIng = none :=
  ⟨(getIngresses_hostFilter "example.com" noRulesIng [] []).1 rfl,
    ((getIngresses_hostFilter "example.com" otherHostIng [] []).2.2.2
      (by decide) (by decide) (by decide)).1⟩

/-! ## C9: the tail-lines safety ceiling -/

/-- C9: every log-stream request `GetPodsLogs` issues — explicit
container, single container, or multi-container aggregation — carries a
tail-lines value of at most 300: exactly the caller's `n` when
`n ≤ 300` and exactly 300 when `n > 300`. -/
theorem getPodsLogs_tailCeiling (containerName : String)
    (podGet : Except String (List String)) (n : Int) :
    ∀ req ∈ getPodsLogsRequests containerName podGet n,
      req.tailLines ≤ 300 ∧ (n ≤ 300 → req.tailLines = n) ∧
      (n > 300 → req.tailLines = 300) := by
  intro req hreq
  have hclamp : req.tailLines = clampTail n := by
    unfold getPodsLogsRequests at hreq
    by_cases hcn : containerName ≠ ""
    · simp [hcn] at hreq
      rw [hreq]
    · simp [hcn] at hreq
      cases podGet with
      | error e => simp at hreq
      | ok containers =>
        by_cases hlen : containers.length = 1
        · simp [hlen] at hreq
          rw [hreq]
        · simp [hlen] at hreq
          rcases hreq with ⟨c, _, hc⟩
          rw [← hc]

  rw [hclamp]
  unfold clampTail
  split <;> omega

theorem getPodsLogs_tailCeiling_witness :
    ((⟨"app", 300⟩ : LogRequest).tailLines ≤ 300 ∧
      ((500 : Int) ≤ 300 → (⟨"app", 300⟩ : LogRequest).tailLines = 500) ∧
      ((500 : Int) > 300 → (⟨"app", 300⟩ : LogRequest).tailLines = 300)) ∧
    ((⟨"b", 42⟩ : LogRequest).tailLines ≤ 300 ∧
      ((42 : Int) ≤ 300 → (⟨"b", 42⟩ : LogRequest).tailLines = 42) ∧
      ((42 : Int) > 300 → (⟨"b", 42⟩ : LogRequest).tailLines = 300)) :=
  ⟨getPodsLogs_tailCeiling "app" (.ok ["a", "b"]) 500 ⟨"app", 300⟩ (by decide),
    getPodsLogs_tailCeiling "" (.ok ["a", "b"]) 42 ⟨"b", 42⟩ (by decide)⟩

end KubeMCP
